import Mathlib

/-!
Verification development for the FSLAM data-ingestion and playback front end
(`src/FSLAM/src/util/DatasetReader.h` and `src/FSLAM/src/main.cpp`).

Floating-point quantities (timestamps, exposures, playback targets) are
modelled as exact rationals; machine integers as `Int`/`Nat`.  Fallible
vector indexing is modelled with `Option`.  External collaborators (the
estimation engine, the display, the image codecs, wall-clock time) are
modelled as oracles supplied to the embedded control flow.
-/

namespace FSLAM

/-! ### Archive frame reading (`ImageFolderReader::getImageRaw_internal`, DatasetReader.h 360-396)

`zipFread entry n` models `zip_fread` on a freshly opened archive entry of
`entry` bytes when `n` bytes are requested: it yields `min entry n` bytes.
The outcome record tracks, for the read that produced the returned data,
the capacity of the buffer the bytes were written into (`bufCapacity`),
the number of bytes requested (`readRequest`) and actually delivered
(`bytesWritten`), and whether the size-mismatch abort was taken. -/

def zipFread (entrySize request : Nat) : Nat := min entrySize request

structure ZipReadOutcome where
  aborted : Bool
  readbytes : Nat
  bufCapacity : Nat
  readRequest : Nat
  bytesWritten : Nat
deriving DecidableEq, Repr

/-- Embedding of the zipped branch of `getImageRaw_internal`:
buffer of `widthOrg*heightOrg*6+10000` bytes, read of the same size;
if more than `widthOrg*heightOrg*6` bytes came back, the buffer is deleted,
a new one of `widthOrg*heightOrg*30` bytes is allocated, and
`widthOrg*heightOrg*30+10000` bytes are requested into it; if more than
`widthOrg*heightOrg*30` bytes come back the process aborts. -/
def getImageRaw_internal_zip (widthOrg heightOrg entrySize : Nat) : ZipReadOutcome :=
  let cap1 := widthOrg * heightOrg * 6 + 10000
  let read1 := zipFread entrySize cap1
  if read1 > widthOrg * heightOrg * 6 then
    let cap2 := widthOrg * heightOrg * 30
    let req2 := widthOrg * heightOrg * 30 + 10000
    let read2 := zipFread entrySize req2
    { aborted := read2 > widthOrg * heightOrg * 30
      readbytes := read2
      bufCapacity := cap2
      readRequest := req2
      bytesWritten := read2 }
  else
    { aborted := false
      readbytes := read1
      bufCapacity := cap1
      readRequest := cap1
      bytesWritten := read1 }

/-! ### Timestamp query (`ImageFolderReader::getTimestamp`, DatasetReader.h 281-287) -/

def getTimestamp (timestamps : List ℚ) (id : Int) : ℚ :=
  if timestamps.length = 0 then (id : ℚ) * (4 / 100)
  else if (timestamps.length : Int) ≤ id then 0
  else if id < 0 then 0
  else timestamps.getD id.toNat 0

/-! ### Per-frame lookups inside `getImage_internal` (DatasetReader.h 422-473)
and `getFilename` (DatasetReader.h 295-298).

The C++ indexes `exposures[id]`, `timestamps[id]` and `files[id]` with no
bounds check; an out-of-range access is undefined, modelled as `none`. -/

def exposureArg (exposures : List ℚ) (id : Int) : Option ℚ :=
  if exposures.length = 0 then some 1
  else if 0 ≤ id then exposures[id.toNat]? else none

def timestampArg (timestamps : List ℚ) (id : Int) : Option ℚ :=
  if timestamps.length = 0 then some 0
  else if 0 ≤ id then timestamps[id.toNat]? else none

def getFilename (files : List String) (id : Int) : Option String :=
  if 0 ≤ id then files[id.toNat]? else none

/-- The (exposure, timestamp) pair handed to the undistorter by
`getImage_internal`; defined exactly when both unchecked accesses are. -/
def getImageMeta (exposures timestamps : List ℚ) (id : Int) : Option (ℚ × ℚ) :=
  match exposureArg exposures id, timestampArg timestamps id with
  | some e, some t => some (e, t)
  | _, _ => none

/-! ### Exposure repair and series reconciliation
(`ImageFolderReader::loadTimestamps`, DatasetReader.h 481-545) -/

/-- One step of the in-place repair loop, at index `i` of the current
array `a`: if `a[i] == 0`, average the neighbours `a[i-1]` and `a[i+1]`
that are `> 0` (if any) into `a[i]`.  Out of the loop range the array is
returned unchanged (the `getD` default 1 is never 0). -/
def fixOne (a : List ℚ) (i : Nat) : List ℚ :=
  if a.getD i 1 = 0 then
    let sum : ℚ := (if 0 < i ∧ 0 < a.getD (i - 1) 0 then a.getD (i - 1) 0 else 0)
                 + (if i + 1 < a.length ∧ 0 < a.getD (i + 1) 0 then a.getD (i + 1) 0 else 0)
    let num : ℚ := (if 0 < i ∧ 0 < a.getD (i - 1) 0 then 1 else 0)
                 + (if i + 1 < a.length ∧ 0 < a.getD (i + 1) 0 then 1 else 0)
    if 0 < num then a.set i (sum / num) else a
  else a

/-- The repair loop after processing indices `0, 1, ..., n-1` in order,
each step operating on the array left by the previous one. -/
def fixUpTo (e : List ℚ) : Nat → List ℚ
  | 0 => e
  | Nat.succ i => fixOne (fixUpTo e i) i

/-- The exposure series after the whole repair sweep. -/
def fixExposures (e : List ℚ) : List ℚ := fixUpTo e e.length

/-- `exposuresGood` as computed by the loop: the count matches the number
of images, and at each index the value observed right after the repair
attempt at that index is nonzero. -/
def exposuresGood (e : List ℚ) (numImages : Nat) : Bool :=
  decide (e.length = numImages) &&
    (List.range e.length).all fun i => !decide ((fixUpTo e (i + 1)).getD i 1 = 0)

structure LoadedSeries where
  timestamps : List ℚ
  exposures : List ℚ
deriving DecidableEq, Repr

/-- The tail of `loadTimestamps` (DatasetReader.h 512-542): repair the
exposures, then discard both series if the timestamp count mismatches the
catalog size, then discard the exposures if their count mismatches or the
repair left an invalid entry. -/
def loadTimestamps (numImages : Nat) (ts es : List ℚ) : LoadedSeries :=
  let fixedEs := fixExposures es
  let good := exposuresGood es numImages
  let ts1 := if numImages ≠ ts.length then ([] : List ℚ) else ts
  let es1 := if numImages ≠ ts.length then ([] : List ℚ) else fixedEs
  let es2 := if numImages ≠ es1.length ∨ good = false then ([] : List ℚ) else es1
  { timestamps := ts1, exposures := es2 }

/-- Value written by the repair sweep at a zero entry: computed from the
already-repaired left immediate neighbour and the original right immediate
neighbour only. -/
def immediateRepair (e : List ℚ) (i : Nat) : ℚ :=
  if 0 < i ∧ 0 < (fixExposures e).getD (i - 1) 0 then
    if i + 1 < e.length ∧ 0 < e.getD (i + 1) 0 then
      ((fixExposures e).getD (i - 1) 0 + e.getD (i + 1) 0) / 2
    else (fixExposures e).getD (i - 1) 0
  else if i + 1 < e.length ∧ 0 < e.getD (i + 1) 0 then e.getD (i + 1) 0
  else 0

/-! Spec-side reading of the repair rule, used to compare against the code:
"averaging the nearest valid (non-zero) neighbors on either side". -/

/-- Nearest nonzero entry strictly before index `i` (searching `i-1, i-2, ...`). -/
def nearestValidLeft (e : List ℚ) : Nat → Option ℚ
  | 0 => none
  | Nat.succ j => if e.getD j 0 ≠ 0 then some (e.getD j 0) else nearestValidLeft e j

def firstValid : List ℚ → Option ℚ
  | [] => none
  | x :: xs => if x ≠ 0 then some x else firstValid xs

/-- Nearest nonzero entry strictly after index `i`. -/
def nearestValidRight (e : List ℚ) (i : Nat) : Option ℚ := firstValid (e.drop (i + 1))

/-- The repair rule as the spec sentence states it: a zero entry becomes
the average of the nearest valid neighbours on either side when at least
one exists, and otherwise remains invalid. -/
def specNearestRepairAt (e r : List ℚ) (i : Nat) : Prop :=
  match nearestValidLeft e i, nearestValidRight e i with
  | some l, some rv => r[i]? = some ((l + rv) / 2)
  | some l, none => r[i]? = some l
  | none, some rv => r[i]? = some rv
  | none, none => r[i]? = e[i]?

/-- The repair sentence of the spec, as stated, quantified over series. -/
def nearestNeighborRepairClaim : Prop :=
  ∀ e : List ℚ, ∀ i : Nat, i < e.length → e[i]? = some 0 →
    specNearestRepairAt e (fixExposures e) i

/-! ### Playback plan construction (`runthread`, main.cpp 252-268) -/

/-- C `fabs`. -/
def fabs (x : ℚ) : ℚ := if x < 0 then -x else x

def timesToPlayAtAux (playbackSpeed : ℚ) : ℚ → ℚ → List ℚ → List ℚ
  | _, _, [] => []
  | tsPrev, prevTarget, tsThis :: rest =>
    let t := prevTarget + fabs (tsThis - tsPrev) / playbackSpeed
    t :: timesToPlayAtAux playbackSpeed tsThis t rest

/-- Target wall-clock offsets for the frames of the plan, from the
timestamps of the planned frames in plan order: the first target is 0,
each following target adds `fabs(tsThis - tsPrev)/playbackSpeed`. -/
def timesToPlayAt (playbackSpeed : ℚ) : List ℚ → List ℚ
  | [] => []
  | ts0 :: rest => 0 :: timesToPlayAtAux playbackSpeed ts0 0 rest

/-! ### Per-frame pacing decision (`runthread`, main.cpp 314-327) -/

inductive PaceAction where
  /-- sleep the given number of seconds, then feed the frame -/
  | sleepFor (seconds : ℚ)
  /-- feed the frame immediately -/
  | feed
  /-- mark the frame skipped: it is not fed to the engine -/
  | skip
deriving DecidableEq, Repr

/-- The sleep/skip decision at plan index `ii`, given the frame's target
offset and the measured `sSinceStart` (initializer offset plus wall-clock
elapsed). -/
def paceFrame (playbackSpeed target sSinceStart : ℚ) (ii : Nat) : PaceAction :=
  if playbackSpeed ≠ 0 then
    if sSinceStart < target then .sleepFor (target - sSinceStart)
    else if sSinceStart > target + 1/2 + 1/10 * ((ii % 2 : Nat) : ℚ) then .skip
    else .feed
  else .feed

/-! ### Playback index sequence (main.cpp 218-230 and 255) -/

/-- The reverse-mode start index: `lstart = endIndex - 1`, clamped to
`numImages - 1` when it reaches past the catalog. -/
def reverseStart (endIndex numImages : Int) : Int :=
  let l := endIndex - 1
  if numImages ≤ l then numImages - 1 else l

/-- The loop `for(i=lstart; i>=0 && i<numImages && linc*i<linc*lend; i+=linc)`,
with fuel (the loop visits at most `numImages` distinct indices). -/
def buildIdsAux (numImages lend linc : Int) : Nat → Int → List Int
  | 0, _ => []
  | Nat.succ fuel, i =>
    if 0 ≤ i ∧ i < numImages ∧ linc * i < linc * lend then
      i :: buildIdsAux numImages lend linc fuel (i + linc)
    else []

def buildIds (numImages lstart lend linc : Int) : List Int :=
  buildIdsAux numImages lend linc (numImages.toNat + 1) lstart

/-! ### Session loop: reset handling and loss exit (`runthread`, main.cpp 288-407)

The engine (`FullSystem`) is external; we track what the controller
installs into it: the photometric gamma function (identified by a tag),
the linearized-operation flag, and a generation counter that increments on
every `delete`/`new` pair, so a changed generation means the engine object
was destroyed and a fresh one constructed.  Output collaborators are
identified by tags; list equality models "same objects, same order".
Engine-reported flags, external reset requests, skip decisions and display
liveness are oracles indexed by the plan position. -/

structure Engine where
  gamma : Nat
  linearized : Bool
  generation : Nat
deriving DecidableEq, Repr

def freshEngine (gamma : Nat) (playbackSpeed : ℚ) (generation : Nat) : Engine :=
  { gamma := gamma, linearized := decide (playbackSpeed = 0), generation := generation }

structure SessState where
  fullSystem : Engine
  outputWrapper : List Nat
  resetRequested : Bool
deriving DecidableEq, Repr

/-- The reset block at main.cpp 339-361: entered when the engine reports
`initFailed` or a full reset was requested; honored only when `ii < 250`
or the reset was requested; on honor, collaborators are kept, the engine
is destroyed and rebuilt with the same gamma function and the same
`linearizeOperation = (playbackSpeed == 0)` flag, and the request flag is
cleared.  Returns the new state and whether the reset was performed. -/
def resetStep (gamma : Nat) (playbackSpeed : ℚ) (ii : Nat) (initFailed : Bool)
    (s : SessState) : SessState × Bool :=
  if initFailed = true ∨ s.resetRequested = true then
    if ii < 250 ∨ s.resetRequested = true then
      ({ fullSystem := freshEngine gamma playbackSpeed (s.fullSystem.generation + 1)
         outputWrapper := s.outputWrapper
         resetRequested := false }, true)
    else (s, false)
  else (s, false)

structure IterReport where
  initFailed : Bool
  isLost : Bool

structure LoopEnv where
  gamma : Nat
  playbackSpeed : ℚ
  report : Nat → IterReport
  forceReset : Nat → Bool
  skipAt : Nat → Bool
  viewerDead : Nat → Bool

inductive Event where
  | feed (ii : Nat) (id : Int)
  | resetPerformed (ii : Nat)
  | finalizeBlock
  | saveResult
  | reportStats
deriving DecidableEq, Repr

/-- One playback loop: per iteration, feed the frame unless skipped, exit
if the display died, handle reset, exit if the engine reports loss. -/
def loopAux (env : LoopEnv) : List Int → Nat → SessState → List Event
  | [], _, _ => []
  | id :: rest, ii, s =>
    let feedEvs : List Event := if env.skipAt ii then [] else [.feed ii id]
    if env.viewerDead ii then feedEvs
    else
      let s1 := if env.forceReset ii then { s with resetRequested := true } else s
      let p := resetStep env.gamma env.playbackSpeed ii (env.report ii).initFailed s1
      let resetEvs : List Event := if p.2 then [.resetPerformed ii] else []
      if (env.report ii).isLost then feedEvs ++ resetEvs
      else feedEvs ++ resetEvs ++ loopAux env rest (ii + 1) p.1

/-- The whole worker thread: the loop, then the finalization that always
follows it — block until mapping finishes, persist the trajectory,
report throughput statistics (main.cpp 370-395). -/
def runthread (env : LoopEnv) (plan : List Int) (s0 : SessState) : List Event :=
  loopAux env plan 0 s0 ++ [.finalizeBlock, .saveResult, .reportStats]

/-! ## Helper lemmas -/

theorem fixOne_length (a : List ℚ) (i : Nat) : (fixOne a i).length = a.length := by
  unfold fixOne
  repeat' split
  all_goals simp [List.length_set]

theorem fixUpTo_length (e : List ℚ) (n : Nat) : (fixUpTo e n).length = e.length := by
  induction n with
  | zero => rfl
  | succ n ih => simp [fixUpTo, fixOne_length, ih]

theorem fixOne_getElem?_ne (a : List ℚ) {i j : Nat} (h : j ≠ i) :
    (fixOne a i)[j]? = a[j]? := by
  unfold fixOne
  repeat' split
  all_goals simp [List.getElem?_set_ne (Ne.symm h)]

theorem fixUpTo_getElem?_ge (e : List ℚ) {n j : Nat} (h : n ≤ j) :
    (fixUpTo e n)[j]? = e[j]? := by
  induction n with
  | zero => rfl
  | succ n ih =>
    have hj : j ≠ n := by omega
    simp [fixUpTo, fixOne_getElem?_ne _ hj, ih (by omega)]

theorem fixUpTo_getElem?_stable (e : List ℚ) {n m j : Nat} (hj : j < n) (hnm : n ≤ m) :
    (fixUpTo e m)[j]? = (fixUpTo e n)[j]? := by
  induction m, hnm using Nat.le_induction with
  | base => rfl
  | succ m hm ih =>
    have hj2 : j ≠ m := by omega
    simp [fixUpTo, fixOne_getElem?_ne _ hj2, ih]

theorem fixExposures_getElem?_eq (e : List ℚ) {j : Nat} (hj : j < e.length) :
    (fixExposures e)[j]? = (fixOne (fixUpTo e j) j)[j]? := by
  unfold fixExposures
  rw [fixUpTo_getElem?_stable e (Nat.lt_succ_self j) hj]
  rfl

theorem fixOne_getElem?_self (a : List ℚ) (i : Nat) (hi : i < a.length)
    (h0 : a[i]? = some 0) :
    (fixOne a i)[i]? = some (
      if 0 < i ∧ 0 < a.getD (i - 1) 0 then
        if i + 1 < a.length ∧ 0 < a.getD (i + 1) 0 then
          (a.getD (i - 1) 0 + a.getD (i + 1) 0) / 2
        else a.getD (i - 1) 0
      else if i + 1 < a.length ∧ 0 < a.getD (i + 1) 0 then a.getD (i + 1) 0
      else 0) := by
  have hd : a.getD i 1 = 0 := by rw [List.getD_eq_getElem?_getD, h0]; rfl
  unfold fixOne
  rw [if_pos hd]
  by_cases hL : 0 < i ∧ 0 < a.getD (i - 1) 0 <;>
    by_cases hR : i + 1 < a.length ∧ 0 < a.getD (i + 1) 0
  · simp only [if_pos hL, if_pos hR]
    rw [if_pos (by norm_num : (0:ℚ) < 1 + 1), List.getElem?_set_eq_of_lt _ hi]
    norm_num
  · simp only [if_pos hL, if_neg hR]
    rw [if_pos (by norm_num : (0:ℚ) < 1 + 0), List.getElem?_set_eq_of_lt _ hi]
    norm_num
  · simp only [if_neg hL, if_pos hR]
    rw [if_pos (by norm_num : (0:ℚ) < 0 + 1), List.getElem?_set_eq_of_lt _ hi]
    norm_num
  · simp only [if_neg hL, if_neg hR]
    rw [if_neg (by norm_num : ¬(0:ℚ) < 0 + 0)]
    exact h0

/-- The final value at each index of the repaired series is a function of
that entry, the final value of the left immediate neighbour, and the
original value of the right immediate neighbour. -/
theorem fixExposures_pointwise (e : List ℚ) (i : Nat) (hi : i < e.length) :
    (∀ v, e[i]? = some v → v ≠ 0 → (fixExposures e)[i]? = some v) ∧
    (e[i]? = some 0 → (fixExposures e)[i]? = some (immediateRepair e i)) := by
  have hlen : (fixUpTo e i).length = e.length := fixUpTo_length e i
  have haj : (fixUpTo e i)[i]? = e[i]? := fixUpTo_getElem?_ge e le_rfl
  have haj1 : (fixUpTo e i)[i + 1]? = e[i + 1]? := fixUpTo_getElem?_ge e (by omega)
  have hfin : (fixExposures e)[i]? = (fixOne (fixUpTo e i) i)[i]? :=
    fixExposures_getElem?_eq e hi
  have hgetDi : (fixUpTo e i).getD i 1 = (e[i]?).getD 1 := by
    rw [List.getD_eq_getElem?_getD, haj]
  have hgetDr : (fixUpTo e i).getD (i + 1) 0 = e.getD (i + 1) 0 := by
    rw [List.getD_eq_getElem?_getD, haj1, List.getD_eq_getElem?_getD]
  have hset : i < (fixUpTo e i).length := by omega
  constructor
  · intro v hv hvne
    rw [hfin]
    unfold fixOne
    rw [hgetDi, hv]
    simp only [Option.getD_some, if_neg hvne]
    rw [haj, hv]
  · intro h0
    rw [hfin, fixOne_getElem?_self (fixUpTo e i) i hset (by rw [haj]; exact h0)]
    unfold immediateRepair
    rw [hgetDr, hlen]
    by_cases hi0 : 0 < i
    · have hgetDl : (fixUpTo e i).getD (i - 1) 0 = (fixExposures e).getD (i - 1) 0 := by
        unfold fixExposures
        rw [List.getD_eq_getElem?_getD, List.getD_eq_getElem?_getD,
          fixUpTo_getElem?_stable e (show i - 1 < i by omega) (show i ≤ e.length by omega)]
      rw [hgetDl]
    · rw [if_neg (show ¬(0 < i ∧ 0 < (fixUpTo e i).getD (i - 1) 0) from fun h => hi0 h.1),
        if_neg (show ¬(0 < i ∧ 0 < (fixExposures e).getD (i - 1) 0) from fun h => hi0 h.1)]

theorem fixExposures_length (e : List ℚ) : (fixExposures e).length = e.length :=
  fixUpTo_length e e.length

theorem exposuresGood_spec (es : List ℚ) (N : Nat) (h : exposuresGood es N = true) :
    es.length = N ∧ ∀ x ∈ fixExposures es, x ≠ 0 := by
  unfold exposuresGood at h
  rw [Bool.and_eq_true] at h
  obtain ⟨h1, h2⟩ := h
  refine ⟨of_decide_eq_true h1, ?_⟩
  intro x hx
  obtain ⟨j, hj, hval⟩ := List.getElem_of_mem hx
  have hjlen : j < es.length := by
    have := fixExposures_length es
    omega
  rw [List.all_eq_true] at h2
  have hgood := h2 j (List.mem_range.mpr hjlen)
  simp only [Bool.not_eq_true', decide_eq_false_iff_not] at hgood
  have hst : (fixUpTo es es.length)[j]? = (fixUpTo es (j + 1))[j]? :=
    fixUpTo_getElem?_stable es (by omega) (by omega)
  have hx? : (fixUpTo es (j + 1))[j]? = some x := by
    rw [← hst]
    show (fixExposures es)[j]? = some x
    rw [List.getElem?_eq_getElem hj, hval]
  intro hx0
  apply hgood
  rw [List.getD_eq_getElem?_getD, hx?, hx0]
  rfl

theorem exposuresGood_false_of_zero (es : List ℚ) (N : Nat) (i : Nat)
    (h : (fixExposures es)[i]? = some 0) :
    exposuresGood es N = false := by
  cases hb : exposuresGood es N with
  | false => rfl
  | true =>
    obtain ⟨_, hall⟩ := exposuresGood_spec es N hb
    exact absurd rfl (hall 0 (List.getElem?_mem h))

theorem fixExposures_ex1 : fixExposures [0, 2, 0] = [2, 2, 2] := by
  norm_num [fixExposures, fixUpTo, fixOne, List.getD, List.set]

theorem fixExposures_ex2 : fixExposures [2, 0, 0] = [2, 2, 2] := by
  norm_num [fixExposures, fixUpTo, fixOne, List.getD, List.set]

theorem fixExposures_ex3 : fixExposures [0, 0, 3] = [0, 3, 3] := by
  norm_num [fixExposures, fixUpTo, fixOne, List.getD, List.set]

theorem loadTimestamps_ex1 : loadTimestamps 3 [1, 2, 3] [0, 2, 0] =
    { timestamps := [1, 2, 3], exposures := [2, 2, 2] } := by
  norm_num [loadTimestamps, exposuresGood, fixExposures, fixUpTo, fixOne,
    List.getD, List.set, List.range, List.range.loop]

theorem loadTimestamps_ex2 : loadTimestamps 3 [1, 2, 3] [0, 0, 0] =
    { timestamps := [1, 2, 3], exposures := [] } := by
  norm_num [loadTimestamps, exposuresGood, fixExposures, fixUpTo, fixOne,
    List.getD, List.set, List.range, List.range.loop]

theorem loadTimestamps_ex3 : loadTimestamps 3 [1, 2, 3] [0, 0, 3] =
    { timestamps := [1, 2, 3], exposures := [] } := by
  norm_num [loadTimestamps, exposuresGood, fixExposures, fixUpTo, fixOne,
    List.getD, List.set, List.range, List.range.loop]

theorem exposureArg_nil (id : Int) : exposureArg [] id = some 1 := rfl

theorem timesToPlayAtAux_step (speed : ℚ) :
    ∀ (rest : List ℚ) (tsPrev prevTarget : ℚ) (k : Nat) (tk tk1 g : ℚ),
      (tsPrev :: rest)[k]? = some tk →
      (tsPrev :: rest)[k + 1]? = some tk1 →
      (prevTarget :: timesToPlayAtAux speed tsPrev prevTarget rest)[k]? = some g →
      (prevTarget :: timesToPlayAtAux speed tsPrev prevTarget rest)[k + 1]? =
        some (g + fabs (tk1 - tk) / speed) := by
  intro rest
  induction rest with
  | nil =>
    intro tsPrev prevTarget k tk tk1 g _ h2 _
    simp at h2
  | cons t rs ih =>
    intro tsPrev prevTarget k tk tk1 g h1 h2 h3
    cases k with
    | zero =>
      simp only [List.getElem?_cons_zero, Option.some_inj] at h1 h3
      simp only [List.getElem?_cons_succ, List.getElem?_cons_zero, Option.some_inj] at h2
      subst h1 h2 h3
      simp [timesToPlayAtAux]
    | succ k =>
      simp only [List.getElem?_cons_succ, timesToPlayAtAux] at h1 h2 h3 ⊢
      have hstep := ih t _ k tk tk1 g h1 (by simpa using h2) h3
      simpa using hstep

theorem timesToPlayAt_spec (speed : ℚ) (ts : List ℚ) (k : Nat) (tk tk1 g : ℚ) :
    (ts ≠ [] → (timesToPlayAt speed ts)[0]? = some 0) ∧
    (ts[k]? = some tk → ts[k + 1]? = some tk1 →
      (timesToPlayAt speed ts)[k]? = some g →
      (timesToPlayAt speed ts)[k + 1]? = some (g + fabs (tk1 - tk) / speed)) := by
  cases ts with
  | nil => exact ⟨fun h => absurd rfl h, by intro h; simp at h⟩
  | cons t0 rest =>
    exact ⟨fun _ => by simp [timesToPlayAt], fun h1 h2 h3 =>
      timesToPlayAtAux_step speed rest t0 0 k tk tk1 g h1 h2 h3⟩

theorem paceFrame_spec (speed target s : ℚ) (ii : Nat) (hspeed : 0 < speed) :
    (paceFrame speed target s ii = .skip ↔
      s > target + 1/2 + 1/10 * ((ii % 2 : Nat) : ℚ)) ∧
    (s < target → paceFrame speed target s ii = .sleepFor (target - s)) := by
  have hne : speed ≠ 0 := ne_of_gt hspeed
  have hslack : (0:ℚ) ≤ 1/2 + 1/10 * ((ii % 2 : Nat) : ℚ) := by positivity
  constructor
  · unfold paceFrame
    rw [if_pos hne]
    split_ifs with hlt hgt
    · constructor
      · intro h; exact absurd h (by simp)
      · intro h; linarith
    · exact ⟨fun _ => hgt, fun _ => rfl⟩
    · constructor
      · intro h; exact absurd h (by simp)
      · intro h; exact absurd h hgt
  · intro hlt
    unfold paceFrame
    rw [if_pos hne, if_pos hlt]

theorem timesToPlayAt_example : timesToPlayAt 2 [5, 6, 7] = [0, 1/2, 1] := by
  norm_num [timesToPlayAt, timesToPlayAtAux, fabs]

theorem paceFrame_example1 : paceFrame 2 1 (17/10) 2 = .skip := by
  norm_num [paceFrame]

theorem paceFrame_example2 : paceFrame 2 1 (9/10) 2 = .sleepFor (1/10) := by
  norm_num [paceFrame]

theorem buildIdsAux_mem (numImages lend linc : Int) :
    ∀ (fuel : Nat) (i x : Int), x ∈ buildIdsAux numImages lend linc fuel i →
      0 ≤ x ∧ x < numImages ∧ linc * x < linc * lend := by
  intro fuel
  induction fuel with
  | zero => intro i x hx; simp [buildIdsAux] at hx
  | succ fuel ih =>
    intro i x hx
    simp only [buildIdsAux] at hx
    split_ifs at hx with hc
    · rcases List.mem_cons.mp hx with h | h
      · subst h; exact hc
      · exact ih (i + linc) x h
    · simp at hx

theorem buildIdsAux_mem_ge (numImages lend : Int) :
    ∀ (fuel : Nat) (i x : Int), x ∈ buildIdsAux numImages lend 1 fuel i → i ≤ x := by
  intro fuel
  induction fuel with
  | zero => intro i x hx; simp [buildIdsAux] at hx
  | succ fuel ih =>
    intro i x hx
    simp only [buildIdsAux] at hx
    split_ifs at hx with hc
    · rcases List.mem_cons.mp hx with h | h
      · omega
      · have := ih (i + 1) x h; omega
    · simp at hx

theorem buildIdsAux_head (numImages lend linc : Int) :
    ∀ (fuel : Nat) (i y : Int), (buildIdsAux numImages lend linc fuel i)[0]? = some y →
      y = i := by
  intro fuel
  cases fuel with
  | zero => intro i y hy; simp [buildIdsAux] at hy
  | succ fuel =>
    intro i y hy
    simp only [buildIdsAux] at hy
    split_ifs at hy
    · simpa using hy.symm
    · simp at hy

theorem buildIdsAux_step (numImages lend linc : Int) :
    ∀ (fuel : Nat) (i : Int) (k : Nat) (x y : Int),
      (buildIdsAux numImages lend linc fuel i)[k]? = some x →
      (buildIdsAux numImages lend linc fuel i)[k + 1]? = some y →
      y = x + linc := by
  intro fuel
  induction fuel with
  | zero => intro i k x y hx _; simp [buildIdsAux] at hx
  | succ fuel ih =>
    intro i k x y hx hy
    simp only [buildIdsAux] at hx hy
    split_ifs at hx hy with hc
    · cases k with
      | zero =>
        simp only [List.getElem?_cons_zero, Option.some_inj] at hx
        simp only [List.getElem?_cons_succ] at hy
        have := buildIdsAux_head numImages lend linc fuel (i + linc) y hy
        omega
      | succ k =>
        simp only [List.getElem?_cons_succ] at hx hy
        exact ih (i + linc) k x y hx hy
    · simp at hx

theorem reverseStart_eq_min (endIndex numImages : Int) :
    reverseStart endIndex numImages = min endIndex numImages - 1 := by
  unfold reverseStart
  dsimp only
  split_ifs with h <;> omega

theorem buildIds_example : buildIds 8 (reverseStart 10 8) 0 (-1) = [7, 6, 5, 4, 3, 2, 1] := by
  decide

theorem resetStep_spec (gamma : Nat) (speed : ℚ) (ii : Nat) (initFailed : Bool)
    (s : SessState) (htrig : initFailed = true ∨ s.resetRequested = true) :
    ((resetStep gamma speed ii initFailed s).2 = true ↔
      (ii < 250 ∨ s.resetRequested = true)) ∧
    ((resetStep gamma speed ii initFailed s).2 = true →
      (resetStep gamma speed ii initFailed s).1 =
        { fullSystem := { gamma := gamma, linearized := decide (speed = 0),
                          generation := s.fullSystem.generation + 1 },
          outputWrapper := s.outputWrapper, resetRequested := false }) ∧
    ((resetStep gamma speed ii initFailed s).2 = false →
      (resetStep gamma speed ii initFailed s).1 = s) := by
  unfold resetStep
  rw [if_pos htrig]
  split_ifs with h
  · exact ⟨by simp [h], fun _ => by simp [freshEngine], fun hf => by simp at hf⟩
  · exact ⟨by simpa using h, fun ht => by simp at ht, fun _ => rfl⟩

theorem loopAux_cons (env : LoopEnv) (id : Int) (rest : List Int) (ii : Nat) (s : SessState)
    (hv : env.viewerDead ii = false) (hl : (env.report ii).isLost = false)
    (hf : env.forceReset ii = false) :
    loopAux env (id :: rest) ii s =
      (if env.skipAt ii then [] else [Event.feed ii id]) ++
      (if (resetStep env.gamma env.playbackSpeed ii (env.report ii).initFailed s).2 then
        [Event.resetPerformed ii] else []) ++
      loopAux env rest (ii + 1)
        (resetStep env.gamma env.playbackSpeed ii (env.report ii).initFailed s).1 := by
  simp only [loopAux, hv, hl, hf, Bool.false_eq_true, if_false]

theorem loopAux_feed_cases (env : LoopEnv) (id0 : Int) (rest : List Int) (ii : Nat)
    (s : SessState) (j : Nat) (id : Int)
    (hj : Event.feed j id ∈ loopAux env (id0 :: rest) ii s) :
    j = ii ∨ ((env.report ii).isLost = false ∧
      ∃ s', Event.feed j id ∈ loopAux env rest (ii + 1) s') := by
  simp only [loopAux] at hj
  split_ifs at hj <;>
    simp only [List.mem_append, List.mem_singleton, List.mem_cons, List.not_mem_nil,
      List.nil_append, List.append_nil, or_false, false_or, Event.feed.injEq] at hj <;>
    aesop

theorem loopAux_feed_le (env : LoopEnv) (k : Nat)
    (hlost : (env.report k).isLost = true) :
    ∀ (plan : List Int) (ii : Nat) (s : SessState), ii ≤ k →
      ∀ (j : Nat) (id : Int), Event.feed j id ∈ loopAux env plan ii s → j ≤ k := by
  intro plan
  induction plan with
  | nil => intro ii s _ j id hj; simp [loopAux] at hj
  | cons id0 rest ih =>
    intro ii s hik j id hj
    rcases loopAux_feed_cases env id0 rest ii s j id hj with h | ⟨hnl, s', h⟩
    · omega
    · have hne : ii ≠ k := fun he => by rw [he, hlost] at hnl; cases hnl
      exact ih (ii + 1) s' (by omega) j id h

theorem getElem?_isSome_length {α : Type} (l : List α) (n : Nat) :
    l[n]?.isSome = true ↔ n < l.length := by
  constructor
  · intro h
    by_contra hn
    rw [List.getElem?_eq_none (by omega)] at h
    simp at h
  · intro h
    rw [List.getElem?_eq_getElem h]
    rfl

theorem getTimestamp_spec (ts : List ℚ) (id : Int) :
    (ts = [] → getTimestamp ts id = (id : ℚ) * (4 / 100)) ∧
    (ts ≠ [] → (id < 0 ∨ (ts.length : Int) ≤ id) → getTimestamp ts id = 0) ∧
    (∀ _ : 0 ≤ id, ∀ hlt : id.toNat < ts.length,
      getTimestamp ts id = ts.get ⟨id.toNat, hlt⟩) := by
  refine ⟨fun h => by simp [getTimestamp, h], fun hne hout => ?_, fun h0 hlt => ?_⟩
  · have hlen : ts.length ≠ 0 := fun h => hne (List.eq_nil_of_length_eq_zero h)
    unfold getTimestamp
    rw [if_neg hlen]
    rcases hout with h | h
    · rw [if_neg (by omega), if_pos h]
    · rw [if_pos h]
  · have hlen : ts.length ≠ 0 := by omega
    unfold getTimestamp
    rw [if_neg hlen, if_neg (by omega), if_neg (by omega)]
    rw [List.getD_eq_getElem?_getD, List.getElem?_eq_getElem hlt]
    rfl

theorem exposureArg_spec (es : List ℚ) (id : Int) :
    (es = [] → exposureArg es id = some 1) ∧
    (∀ _ : 0 ≤ id, ∀ hlt : id.toNat < es.length,
      exposureArg es id = some (es.get ⟨id.toNat, hlt⟩)) ∧
    (es ≠ [] → ((exposureArg es id).isSome ↔ 0 ≤ id ∧ id.toNat < es.length)) := by
  refine ⟨fun h => by simp [exposureArg, h], fun h0 hlt => ?_, fun hne => ?_⟩
  · have hlen : es.length ≠ 0 := by omega
    unfold exposureArg
    rw [if_neg hlen, if_pos h0, List.getElem?_eq_getElem hlt]
    rfl
  · have hlen : es.length ≠ 0 := fun h => hne (List.eq_nil_of_length_eq_zero h)
    unfold exposureArg
    rw [if_neg hlen]
    split_ifs with h0
    · rw [getElem?_isSome_length]
      exact ⟨fun h => ⟨h0, h⟩, fun h => h.2⟩
    · simp only [Option.isSome_none, Bool.false_eq_true, false_iff]
      exact fun h => h0 h.1

theorem timestampArg_spec (ts : List ℚ) (id : Int) :
    (ts = [] → timestampArg ts id = some 0) ∧
    (ts ≠ [] → ((timestampArg ts id).isSome ↔ 0 ≤ id ∧ id.toNat < ts.length)) := by
  refine ⟨fun h => by simp [timestampArg, h], fun hne => ?_⟩
  have hlen : ts.length ≠ 0 := fun h => hne (List.eq_nil_of_length_eq_zero h)
  unfold timestampArg
  rw [if_neg hlen]
  split_ifs with h0
  · rw [getElem?_isSome_length]
    exact ⟨fun h => ⟨h0, h⟩, fun h => h.2⟩
  · simp only [Option.isSome_none, Bool.false_eq_true, false_iff]
    exact fun h => h0 h.1

theorem getFilename_spec (files : List String) (id : Int) :
    (getFilename files id).isSome ↔ 0 ≤ id ∧ id.toNat < files.length := by
  unfold getFilename
  split_ifs with h0
  · rw [getElem?_isSome_length]
    exact ⟨fun h => ⟨h0, h⟩, fun h => h.2⟩
  · simp only [Option.isSome_none, Bool.false_eq_true, false_iff]
    exact fun h => h0 h.1

theorem getImageMeta_defined (es ts : List ℚ) (N : Nat) (id : Int)
    (hes : es.length = 0 ∨ es.length = N) (hts : ts.length = 0 ∨ ts.length = N)
    (h0 : 0 ≤ id) (hlt : id.toNat < N) : (getImageMeta es ts id).isSome = true := by
  unfold getImageMeta
  have he : (exposureArg es id).isSome := by
    unfold exposureArg
    split_ifs with h1
    · rfl
    · rw [getElem?_isSome_length]; omega
  have ht : (timestampArg ts id).isSome := by
    unfold timestampArg
    split_ifs with h1
    · rfl
    · rw [getElem?_isSome_length]; omega
  obtain ⟨e0, he0⟩ := Option.isSome_iff_exists.mp he
  obtain ⟨t0, ht0⟩ := Option.isSome_iff_exists.mp ht
  rw [he0, ht0]
  rfl

/-! ## Claim theorems -/

/-- C1: the first archive read uses a buffer of `widthOrg*heightOrg*6+10000`
bytes and on overflow the read is retried exactly once, with an abort when
the retry still overflows; however, the retry buffer is reallocated at
`widthOrg*heightOrg*30` bytes — not `widthOrg*heightOrg*30+10000` as the
claim states — while the retry read requests `widthOrg*heightOrg*30+10000`
bytes into it.  At `widthOrg = heightOrg = 1` with a 40-byte entry, the
retry delivers 40 bytes into the 30-byte allocation before the size
mismatch is reported. -/
theorem archive_retry_buffer_bug :
    getImageRaw_internal_zip 1 1 40 =
      { aborted := true, readbytes := 40, bufCapacity := 30, readRequest := 10030,
        bytesWritten := 40 } ∧
    (getImageRaw_internal_zip 1 1 40).bufCapacity <
      (getImageRaw_internal_zip 1 1 40).bytesWritten ∧
    (getImageRaw_internal_zip 1 1 40).bufCapacity ≠ 1 * 1 * 30 + 10000 ∧
    getImageRaw_internal_zip 1 1 20 =
      { aborted := false, readbytes := 20, bufCapacity := 30, readRequest := 10030,
        bytesWritten := 20 } ∧
    getImageRaw_internal_zip 1 1 5 =
      { aborted := false, readbytes := 5, bufCapacity := 10006, readRequest := 10006,
        bytesWritten := 5 } := by
  decide

/-- C2: the first plan target is 0 and each later target adds
`fabs(timestamp delta)/speed`; with speed nonzero, the frame sleeps the
remaining difference when `sSinceStart` is below target, and is skipped
exactly when `sSinceStart` exceeds the target by more than
`0.5 + 0.1*(index % 2)`; with speed 2 and deltas `[0, 1, 1]` the targets
are `[0, 1/2, 1]`, elapsed `1.7` at the third frame skips it and elapsed
`0.9` sleeps `0.1`. -/
theorem playback_plan_pacing (speed : ℚ) (ts : List ℚ) (k : Nat)
    (tk tk1 g target s : ℚ) (ii : Nat) (hspeed : 0 < speed) :
    (ts ≠ [] → (timesToPlayAt speed ts)[0]? = some 0) ∧
    (ts[k]? = some tk → ts[k + 1]? = some tk1 →
      (timesToPlayAt speed ts)[k]? = some g →
      (timesToPlayAt speed ts)[k + 1]? = some (g + fabs (tk1 - tk) / speed)) ∧
    (paceFrame speed target s ii = .skip ↔
      s > target + 1/2 + 1/10 * ((ii % 2 : Nat) : ℚ)) ∧
    (s < target → paceFrame speed target s ii = .sleepFor (target - s)) ∧
    timesToPlayAt 2 [5, 6, 7] = [0, 1/2, 1] ∧
    paceFrame 2 1 (17/10) 2 = .skip ∧
    paceFrame 2 1 (9/10) 2 = .sleepFor (1/10) :=
  ⟨(timesToPlayAt_spec speed ts k tk tk1 g).1,
   (timesToPlayAt_spec speed ts k tk tk1 g).2,
   (paceFrame_spec speed target s ii hspeed).1,
   (paceFrame_spec speed target s ii hspeed).2,
   timesToPlayAt_example, paceFrame_example1, paceFrame_example2⟩

/-- Witness for C2 at speed 2, plan timestamps `[5, 6, 7]`. -/
theorem playback_plan_pacing_witness :
    (0:ℚ) < 2 ∧
    (timesToPlayAt 2 [5, 6, 7])[1]? = some (0 + fabs (6 - 5) / 2) ∧
    paceFrame 2 1 (17/10) 2 = .skip :=
  ⟨by norm_num,
   (playback_plan_pacing 2 [5, 6, 7] 0 5 6 0 1 (17/10) 2 (by norm_num)).2.1
     rfl rfl (by simp [timesToPlayAt]),
   (playback_plan_pacing 2 [5, 6, 7] 0 5 6 0 1 (17/10) 2 (by norm_num)).2.2.2.2.2.1⟩

/-- C3: when the engine reports initialization failure or a full reset is
requested, the reset is performed exactly when `ii < 250` or the reset was
requested; an honored reset rebuilds the engine (generation bump) with the
session's gamma tag and `linearized = (speed == 0)`, keeps the output
collaborator list identical, and clears the request; a refused reset
leaves the state untouched; the loop then continues with plan index
`ii + 1` and the post-reset state rather than restarting. -/
theorem reset_policy (gamma : Nat) (speed : ℚ) (ii : Nat) (initFailed : Bool)
    (s : SessState) (env : LoopEnv) (id : Int) (rest : List Int) (s2 : SessState)
    (htrig : initFailed = true ∨ s.resetRequested = true) :
    ((resetStep gamma speed ii initFailed s).2 = true ↔
      (ii < 250 ∨ s.resetRequested = true)) ∧
    ((resetStep gamma speed ii initFailed s).2 = true →
      (resetStep gamma speed ii initFailed s).1 =
        { fullSystem := { gamma := gamma, linearized := decide (speed = 0),
                          generation := s.fullSystem.generation + 1 },
          outputWrapper := s.outputWrapper, resetRequested := false }) ∧
    ((resetStep gamma speed ii initFailed s).2 = false →
      (resetStep gamma speed ii initFailed s).1 = s) ∧
    (env.viewerDead ii = false → (env.report ii).isLost = false →
      env.forceReset ii = false →
      loopAux env (id :: rest) ii s2 =
        (if env.skipAt ii then [] else [Event.feed ii id]) ++
        (if (resetStep env.gamma env.playbackSpeed ii (env.report ii).initFailed s2).2 then
          [Event.resetPerformed ii] else []) ++
        loopAux env rest (ii + 1)
          (resetStep env.gamma env.playbackSpeed ii (env.report ii).initFailed s2).1) :=
  ⟨(resetStep_spec gamma speed ii initFailed s htrig).1,
   (resetStep_spec gamma speed ii initFailed s htrig).2.1,
   (resetStep_spec gamma speed ii initFailed s htrig).2.2,
   fun hv hl hf => loopAux_cons env id rest ii s2 hv hl hf⟩

/-- Witness for C3: init failure at plan index 100 with no external request
is honored and rebuilds the engine with the same gamma and collaborators. -/
theorem reset_policy_witness :
    (resetStep 7 0 100 true ⟨⟨7, true, 0⟩, [1, 2], false⟩).2 = true ∧
    (resetStep 7 0 100 true ⟨⟨7, true, 0⟩, [1, 2], false⟩).1 =
      { fullSystem := { gamma := 7, linearized := decide ((0:ℚ) = 0),
                        generation := 0 + 1 },
        outputWrapper := [1, 2], resetRequested := false } :=
  have h := reset_policy 7 0 100 true ⟨⟨7, true, 0⟩, [1, 2], false⟩
    ⟨0, 0, fun _ => ⟨false, false⟩, fun _ => false, fun _ => false, fun _ => false⟩
    0 [] ⟨⟨0, false, 0⟩, [], false⟩ (Or.inl rfl)
  have ht : (resetStep 7 0 100 true ⟨⟨7, true, 0⟩, [1, 2], false⟩).2 = true :=
    h.1.mpr (Or.inl (by norm_num))
  ⟨ht, h.2.1 ht⟩

/-- C4: `getTimestamp` returns `id * 0.04` when no timestamp series is
loaded, `0` for out-of-range ids when one is loaded, and otherwise the
loaded value; the exposure passed to decoding is `1.0` when the exposure
series is empty and otherwise the loaded value; with no side-car file,
`timestamp(0) = 0` and `timestamp(4) = 0.16`. -/
theorem query_contract (ts es : List ℚ) (id : Int) :
    (ts = [] → getTimestamp ts id = (id : ℚ) * (4 / 100)) ∧
    (ts ≠ [] → (id < 0 ∨ (ts.length : Int) ≤ id) → getTimestamp ts id = 0) ∧
    (∀ _ : 0 ≤ id, ∀ hlt : id.toNat < ts.length,
      getTimestamp ts id = ts.get ⟨id.toNat, hlt⟩) ∧
    (es = [] → exposureArg es id = some 1) ∧
    (∀ _ : 0 ≤ id, ∀ hlt : id.toNat < es.length,
      exposureArg es id = some (es.get ⟨id.toNat, hlt⟩)) ∧
    getTimestamp [] 0 = 0 ∧ getTimestamp [] 4 = 16/100 :=
  ⟨(getTimestamp_spec ts id).1, (getTimestamp_spec ts id).2.1,
   (getTimestamp_spec ts id).2.2, (exposureArg_spec es id).1,
   (exposureArg_spec es id).2.1,
   by norm_num [getTimestamp], by norm_num [getTimestamp]⟩

/-- Witness for C4: synthetic clock, out-of-range zero, neutral exposure. -/
theorem query_contract_witness :
    getTimestamp [] 5 = (5 : ℚ) * (4 / 100) ∧
    getTimestamp [(7:ℚ)] 9 = 0 ∧
    exposureArg [] 3 = some 1 :=
  ⟨(query_contract [] [] 5).1 rfl,
   (query_contract [(7:ℚ)] [] 9).2.1 (by simp) (Or.inr (by norm_num)),
   (query_contract [] [] 3).2.2.2.1 rfl⟩

/-- C5 counterexample: the claim repairs a zero by "averaging the nearest
valid (non-zero) neighbors on either side when at least one exists".  At
`[0, 0, 3]` index 0 has a nearest valid neighbour on the right (3, two
positions away), yet the sweep leaves index 0 at 0 and the whole series is
discarded during reconciliation. -/
theorem nearest_neighbor_repair_refuted :
    ¬ nearestNeighborRepairClaim ∧
    nearestValidRight [0, 0, 3] 0 = some 3 ∧
    fixExposures [0, 0, 3] = [0, 3, 3] ∧
    loadTimestamps 3 [1, 2, 3] [0, 0, 3] =
      { timestamps := [1, 2, 3], exposures := [] } := by
  refine ⟨?_, by norm_num [nearestValidRight, firstValid], fixExposures_ex3,
    loadTimestamps_ex3⟩
  intro h
  have h3 := h [0, 0, 3] 0 (by norm_num) rfl
  unfold specNearestRepairAt at h3
  norm_num [nearestValidLeft, nearestValidRight, firstValid] at h3
  rw [fixExposures_ex3] at h3
  simp at h3

/-- C5 (amended): a zero exposure is repaired by averaging the valid
(positive) immediate neighbours — the left neighbour as already repaired
by the sweep, the right neighbour at its original value — when at least
one exists, and otherwise remains invalid; `[0, 2, 0]` with 3 frames
reconciles to `[2, 2, 2]`, while `[0, 0, 0]` is discarded wholesale so
exposure lookup yields `1.0` for every id. -/
theorem exposure_repair_amended (e : List ℚ) (i : Nat) (hi : i < e.length) :
    (e[i]? = some 0 → (fixExposures e)[i]? = some (immediateRepair e i)) ∧
    (∀ v, e[i]? = some v → v ≠ 0 → (fixExposures e)[i]? = some v) ∧
    fixExposures [0, 2, 0] = [2, 2, 2] ∧
    loadTimestamps 3 [1, 2, 3] [0, 2, 0] =
      { timestamps := [1, 2, 3], exposures := [2, 2, 2] } ∧
    loadTimestamps 3 [1, 2, 3] [0, 0, 0] =
      { timestamps := [1, 2, 3], exposures := [] } ∧
    (∀ id : Int, exposureArg [] id = some 1) :=
  ⟨(fixExposures_pointwise e i hi).2, (fixExposures_pointwise e i hi).1,
   fixExposures_ex1, loadTimestamps_ex1, loadTimestamps_ex2, exposureArg_nil⟩

/-- Witness for C5 (amended) at the series `[0, 2, 0]`, index 0. -/
theorem exposure_repair_amended_witness :
    (fixExposures [0, 2, 0])[0]? = some (immediateRepair [0, 2, 0] 0) ∧
    fixExposures [0, 2, 0] = [2, 2, 2] :=
  ⟨(exposure_repair_amended [0, 2, 0] 0 (by norm_num)).1 rfl,
   (exposure_repair_amended [0, 2, 0] 0 (by norm_num)).2.2.1⟩

/-- C6: after loading, the timestamp series length is 0 or N and the
exposure series length is 0 or N with every retained exposure nonzero; a
timestamp count other than N discards both series; an exposure count
other than N, or any exposure still invalid after repair, discards the
exposure series. -/
theorem series_shape_invariant (N : Nat) (ts es : List ℚ) :
    ((loadTimestamps N ts es).timestamps.length = 0 ∨
      (loadTimestamps N ts es).timestamps.length = N) ∧
    ((loadTimestamps N ts es).exposures.length = 0 ∨
      (loadTimestamps N ts es).exposures.length = N) ∧
    (∀ x ∈ (loadTimestamps N ts es).exposures, x ≠ 0) ∧
    (ts.length ≠ N → (loadTimestamps N ts es).timestamps = [] ∧
      (loadTimestamps N ts es).exposures = []) ∧
    (es.length ≠ N → (loadTimestamps N ts es).exposures = []) ∧
    (∀ i, i < es.length → (fixExposures es)[i]? = some 0 →
      (loadTimestamps N ts es).exposures = []) := by
  simp only [loadTimestamps]
  split_ifs with h1 h2 h2
  · simp
  · simp at h2
    simp [h2.1]
  · refine ⟨Or.inr (by omega), Or.inl rfl, by simp, fun h => absurd h (by omega),
      fun _ => rfl, fun _ _ _ => rfl⟩
  · rw [not_or] at h2
    obtain ⟨h2a, h2b⟩ := h2
    simp only [Bool.not_eq_false] at h2b
    obtain ⟨hlenN, hall⟩ := exposuresGood_spec es N h2b
    refine ⟨Or.inr (by omega), Or.inr (by rw [fixExposures_length]; omega), hall,
      fun h => absurd h (by omega), fun h => absurd hlenN (by omega), ?_⟩
    intro i hilen hzero
    exact absurd h2b (by rw [exposuresGood_false_of_zero es N i hzero]; simp)

/-- Witness for C6: a timestamp count of 2 against 3 frames discards both
series. -/
theorem series_shape_invariant_witness :
    (loadTimestamps 3 [1, 2] [0, 0, 0]).timestamps = [] ∧
    (loadTimestamps 3 [1, 2] [0, 0, 0]).exposures = [] :=
  (series_shape_invariant 3 [1, 2] [0, 0, 0]).2.2.2.1 (by norm_num)

/-- C7: forward playback ascends with step +1 inside `[start, end)` and the
catalog range; reverse playback starts at `min(end, numFrames) - 1`,
descends with step -1, and the stop condition `linc*i < linc*lend` with
`lend = start` excludes the start index itself; over 8 frames with
`start = 0`, `end = 10`, reverse playback is `[7, 6, 5, 4, 3, 2, 1]`. -/
theorem playback_index_sequence (numImages startIndex endIndex x y : Int) (k : Nat) :
    (x ∈ buildIds numImages startIndex endIndex 1 →
      startIndex ≤ x ∧ x < endIndex ∧ 0 ≤ x ∧ x < numImages) ∧
    ((buildIds numImages startIndex endIndex 1)[k]? = some x →
      (buildIds numImages startIndex endIndex 1)[k + 1]? = some y → y = x + 1) ∧
    (reverseStart endIndex numImages = min endIndex numImages - 1) ∧
    (x ∈ buildIds numImages (reverseStart endIndex numImages) startIndex (-1) →
      startIndex < x ∧ 0 ≤ x ∧ x < numImages) ∧
    ((buildIds numImages (reverseStart endIndex numImages) startIndex (-1))[k]? = some x →
      (buildIds numImages (reverseStart endIndex numImages) startIndex (-1))[k + 1]? =
        some y → y = x - 1) ∧
    buildIds 8 (reverseStart 10 8) 0 (-1) = [7, 6, 5, 4, 3, 2, 1] := by
  refine ⟨?_, ?_, reverseStart_eq_min endIndex numImages, ?_, ?_, buildIds_example⟩
  · intro hx
    unfold buildIds at hx
    have h1 := buildIdsAux_mem numImages endIndex 1 _ startIndex x hx
    have h2 := buildIdsAux_mem_ge numImages endIndex _ startIndex x hx
    exact ⟨h2, by omega, h1.1, h1.2.1⟩
  · intro h1 h2
    unfold buildIds at h1 h2
    have := buildIdsAux_step numImages endIndex 1 _ startIndex k x y h1 h2
    omega
  · intro hx
    unfold buildIds at hx
    have h1 := buildIdsAux_mem numImages startIndex (-1) _
      (reverseStart endIndex numImages) x hx
    exact ⟨by omega, h1.1, h1.2.1⟩
  · intro h1 h2
    unfold buildIds at h1 h2
    have := buildIdsAux_step numImages startIndex (-1) _
      (reverseStart endIndex numImages) k x y h1 h2
    omega

/-- Witness for C7: reverse playback over 8 frames with start 0, end 10. -/
theorem playback_index_sequence_witness :
    ((0:Int) < 3 ∧ (0:Int) ≤ 3 ∧ (3:Int) < 8) ∧
    buildIds 8 (reverseStart 10 8) 0 (-1) = [7, 6, 5, 4, 3, 2, 1] :=
  ⟨(playback_index_sequence 8 0 10 3 2 4).2.2.2.1 (by decide),
   (playback_index_sequence 8 0 10 3 2 4).2.2.2.2.2⟩

/-- C8: whenever the engine reports tracking loss at some plan position,
no frame with a later position is ever fed, and the trace still ends with
the finalization events: block until mapping finishes, persist the
trajectory, report throughput statistics. -/
theorem loss_graceful_finalization (env : LoopEnv) (plan : List Int) (s0 : SessState)
    (k : Nat) (hlost : (env.report k).isLost = true) :
    ∃ pre, runthread env plan s0 =
        pre ++ [Event.finalizeBlock, Event.saveResult, Event.reportStats] ∧
      ∀ (j : Nat) (id : Int), Event.feed j id ∈ pre → j ≤ k :=
  ⟨loopAux env plan 0 s0, rfl,
    fun j id hj => loopAux_feed_le env k hlost plan 0 s0 (Nat.zero_le k) j id hj⟩

/-- Witness for C8: loss reported at plan position 1 of a 3-frame plan. -/
theorem loss_graceful_finalization_witness :
    ∃ pre, runthread
        ⟨0, 0, fun ii => ⟨false, decide (ii = 1)⟩, fun _ => false, fun _ => false,
          fun _ => false⟩ [10, 20, 30] ⟨⟨0, false, 0⟩, [], false⟩ =
        pre ++ [Event.finalizeBlock, Event.saveResult, Event.reportStats] ∧
      ∀ (j : Nat) (id : Int), Event.feed j id ∈ pre → j ≤ 1 :=
  loss_graceful_finalization
    ⟨0, 0, fun ii => ⟨false, decide (ii = 1)⟩, fun _ => false, fun _ => false,
      fun _ => false⟩ [10, 20, 30] ⟨⟨0, false, 0⟩, [], false⟩ 1 rfl

/-- C9: the repair sweep is a single left-to-right in-place pass that
consults only the immediate neighbours — position `i-1` as already
repaired and position `i+1` at its original value — so a repaired value
propagates rightward (`[2, 0, 0]` becomes `[2, 2, 2]`), while a valid
value two or more positions away never contributes (`[0, 0, 3]` leaves
index 0 unrepaired and the exposure series is discarded). -/
theorem repair_sweep_immediate_neighbors (e : List ℚ) (i : Nat) (hi : i < e.length) :
    (∀ v, e[i]? = some v → v ≠ 0 → (fixExposures e)[i]? = some v) ∧
    (e[i]? = some 0 → (fixExposures e)[i]? = some (immediateRepair e i)) ∧
    fixExposures [2, 0, 0] = [2, 2, 2] ∧
    fixExposures [0, 0, 3] = [0, 3, 3] ∧
    loadTimestamps 3 [1, 2, 3] [0, 0, 3] =
      { timestamps := [1, 2, 3], exposures := [] } :=
  ⟨(fixExposures_pointwise e i hi).1, (fixExposures_pointwise e i hi).2,
   fixExposures_ex2, fixExposures_ex3, loadTimestamps_ex3⟩

/-- Witness for C9 at the series `[2, 0, 0]`, index 1. -/
theorem repair_sweep_immediate_neighbors_witness :
    (fixExposures [2, 0, 0])[1]? = some (immediateRepair [2, 0, 0] 1) ∧
    fixExposures [2, 0, 0] = [2, 2, 2] :=
  ⟨(repair_sweep_immediate_neighbors [2, 0, 0] 1 (by norm_num)).2.1 rfl,
   (repair_sweep_immediate_neighbors [2, 0, 0] 1 (by norm_num)).2.2.1⟩

/-- C10: `getFilename` and the image-decode lookups are defined exactly
for `0 ≤ id < length`; under the post-load length invariant the decode
metadata is defined for every id in `[0, N)`; for an out-of-range id with
a loaded series the decode timestamp access is undefined while
`getTimestamp` still returns the defined fallback 0. -/
theorem unchecked_indexing_preconditions (files : List String) (es ts : List ℚ)
    (N : Nat) (id : Int)
    (hes : es.length = 0 ∨ es.length = N) (hts : ts.length = 0 ∨ ts.length = N) :
    ((getFilename files id).isSome ↔ 0 ≤ id ∧ id.toNat < files.length) ∧
    (0 ≤ id → id.toNat < N → (getImageMeta es ts id).isSome = true) ∧
    (es ≠ [] → ((exposureArg es id).isSome ↔ 0 ≤ id ∧ id.toNat < es.length)) ∧
    (ts ≠ [] → (ts.length : Int) ≤ id →
      timestampArg ts id = none ∧ getTimestamp ts id = 0) :=
  ⟨getFilename_spec files id,
   fun h0 hlt => getImageMeta_defined es ts N id hes hts h0 hlt,
   (exposureArg_spec es id).2.2,
   fun hne hout => by
    constructor
    · have hlen : ts.length ≠ 0 := fun h => hne (List.eq_nil_of_length_eq_zero h)
      unfold timestampArg
      rw [if_neg hlen, if_pos (by omega), List.getElem?_eq_none (by omega)]
    · exact (getTimestamp_spec ts id).2.1 hne (Or.inr hout)⟩

/-- Witness for C10: one catalog file, empty series, id 0 in range. -/
theorem unchecked_indexing_preconditions_witness :
    (getFilename ["a"] 0).isSome = true ∧
    (getImageMeta [] [] 0).isSome = true :=
  ⟨(unchecked_indexing_preconditions ["a"] [] [] 1 0 (Or.inl rfl) (Or.inl rfl)).1.mpr
     ⟨by decide, by decide⟩,
   (unchecked_indexing_preconditions ["a"] [] [] 1 0 (Or.inl rfl) (Or.inl rfl)).2.1
     (by decide) (by decide)⟩

end FSLAM
